import Mathlib

/-!
Verification development for the voicee-bot-server grievance agent
(file src/agent.py).  The dialogue state machine `GrievanceBotLogic`,
the audio frame decoder `AudioFilePlayer._decode_file`, the playback
scheduler `AudioFilePlayer.play` and the orchestrator loops
`process_stt_events` / `push_audio_to_stt` are shallowly embedded below.
Utterances are modelled as lists of characters (Python strings are
character sequences); the Python string methods used by the agent
(`strip`, `lower`, `split`, `startswith`, `endswith`, `find`, `in`)
are reimplemented with Python semantics on `List Char` (ASCII case
mapping; the agent only ever compares ASCII phrase tables).
-/

namespace VoiceBot

/-- Characters Python `str.strip()` removes: tab, LF, VT, FF, CR, space. -/
def isPySpace (c : Char) : Bool :=
  c.toNat = 9 || c.toNat = 10 || c.toNat = 11 || c.toNat = 12 || c.toNat = 13 || c.toNat = 32

/-- ASCII lower-casing of one character, as Python `str.lower()` does on ASCII. -/
def pyLowerChar (c : Char) : Char :=
  if 65 ≤ c.toNat ∧ c.toNat ≤ 90 then Char.ofNat (c.toNat + 32) else c

/-- Python `str.lower()` on the character-list model. -/
def pyLower (cs : List Char) : List Char := cs.map pyLowerChar

/-- Python `str.strip()`: drop leading and trailing whitespace. -/
def pyStrip (cs : List Char) : List Char :=
  ((cs.dropWhile isPySpace).reverse.dropWhile isPySpace).reverse

/-- Worker for `pySplit`: `acc` holds the reversed characters of the word
currently being scanned. -/
def pySplitAux : List Char → List Char → List (List Char)
  | acc, [] => if acc = [] then [] else [acc.reverse]
  | acc, c :: cs =>
    if isPySpace c then
      if acc = [] then pySplitAux [] cs else acc.reverse :: pySplitAux [] cs
    else pySplitAux (c :: acc) cs

/-- Python `str.split()` with no separator: split on runs of whitespace,
producing no empty words. -/
def pySplit (cs : List Char) : List (List Char) := pySplitAux [] cs

/-- Python `str.find(needle)`: index of the first occurrence, `none` if absent. -/
def subFind (hay needle : List Char) : Option Nat :=
  match hay with
  | [] => if needle = [] then some 0 else none
  | _ :: t => if needle.isPrefixOf hay then some 0 else (subFind t needle).map (· + 1)

/-- Python `needle in hay` substring test. -/
def containsSub (hay needle : List Char) : Bool := (subFind hay needle).isSome

/-- View a Lean string literal as the character-list model of a Python string. -/
def chars (s : String) : List Char := s.data

/-- The space character, used by `grievance_text += " " + text_clean`. -/
def spc : Char := Char.ofNat 32

/-- The apostrophe character (appears inside several exit phrases). -/
def apos : Char := Char.ofNat 39

/-- agent.py line 143: `exit_triggers = ["no", "nothing", "nope", "nah"]`. -/
def exit_triggers : List (List Char) :=
  [chars ("no"), chars ("nothing"), chars ("nope"), chars ("nah")]

/-- agent.py lines 168-172: the `strong_exit_phrases` list, in source order.
The phrases with apostrophes are assembled from character pieces. -/
def strong_exit_phrases : List (List Char) :=
  [ chars ("that") ++ apos :: chars ("s all"), chars ("that is all"),
    chars ("that") ++ apos :: chars ("s it"), chars ("that is it"),
    chars ("nothing else"), chars ("nothing more"),
    chars ("i") ++ apos :: chars ("m done"), chars ("i am done"),
    chars ("have a good day"), chars ("thank you bye"), chars ("thanks bye"),
    chars ("thank you"), chars ("Thank you"),
    chars ("That") ++ apos :: chars ("s all") ]

/-- agent.py line 135: the interrogative prefixes of the question guard. -/
def interrogative_words : List (List Char) :=
  [chars ("what"), chars ("how"), chars ("why"), chars ("who"), chars ("where")]

/-- agent.py line 191: the solo-gratitude whole-utterance list. -/
def gratitude_phrases : List (List Char) :=
  [chars ("thank you"), chars ("thanks"), chars ("thank you."), chars ("thanks.")]

/-- agent.py line 120: `self.ack_sounds = ["ack_1", "ack_2", "ack_3"]`. -/
def ack_sounds : List String := ["ack_1", "ack_2", "ack_3"]

/-- The mutable fields of `GrievanceBotLogic` (agent.py lines 114-121). -/
structure BotState where
  state : String
  grievance_text : List Char
  should_disconnect : Bool
  grievance_timestamp : Option Nat
  has_played_probe : Bool
  save_data : Option (List Char × Nat)
deriving DecidableEq, Repr

/-- `GrievanceBotLogic.__init__` (agent.py lines 114-121). -/
def initBot : BotState :=
  { state := "greeting", grievance_text := [], should_disconnect := false,
    grievance_timestamp := none, has_played_probe := false, save_data := none }

/-- One call of `process_input`, with the ambient effects made explicit:
`now` is the value `time.time()` would return, `ackR` is the draw
`random.random() < 0.7`, and `ackC` is the index `random.choice` picks. -/
structure BotInput where
  text : List Char
  now : Nat
  ackR : Bool
  ackC : Fin 3
deriving DecidableEq, Repr

/-- agent.py line 135: the question guard condition, computed from the
stripped text exactly as `text_clean.endswith("?") or
text_lower.startswith(("what", "how", "why", "who", "where"))`. -/
def guardFires (text_clean : List Char) : Bool :=
  (chars ("?")).isSuffixOf text_clean
  || interrogative_words.any (fun w => w.isPrefixOf (pyLower text_clean))

/-- agent.py line 144: `any(t in text_lower for t in exit_triggers) and word_count < 4`. -/
def is_pure_refusal (text_lower : List Char) (word_count : Nat) : Bool :=
  exit_triggers.any (fun t => containsSub text_lower t) && decide (word_count < 4)

/-- agent.py line 227: `self.grievance_timestamp or time.time()` (Python `or`
falls through on the falsy values `None` and `0`). -/
def exit_ts : Option Nat → Nat → Nat
  | none, now => now
  | some t, now => if t = 0 then now else t

/-- `GrievanceBotLogic._prepare_exit` (agent.py lines 217-235): store the
accumulated text for the background save, move to the closing state, set the
disconnect flag and return the "closing" cue. -/
def prepare_exit (s : BotState) (now : Nat) : BotState × Option String :=
  ({ s with save_data := some (s.grievance_text, exit_ts s.grievance_timestamp now),
            state := "closing", should_disconnect := true }, some ("closing"))

/-- agent.py lines 174-184: the `for phrase in strong_exit_phrases` loop.
For each phrase contained in the utterance it checks an exact suffix (with an
optional trailing period) and otherwise counts the words after the FIRST
occurrence (`text_lower.find`), accepting at most two. -/
def strongExitHit (text_lower : List Char) : List (List Char) → Bool
  | [] => false
  | p :: ps =>
    if containsSub text_lower p then
      if p.isSuffixOf text_lower || (p ++ chars (".")).isSuffixOf text_lower then true
      else if (pySplit (pyStrip
          (text_lower.drop ((subFind text_lower p).getD 0 + p.length)))).length ≤ 2 then true
      else strongExitHit text_lower ps
    else strongExitHit text_lower ps

/-- agent.py lines 142-161: the greeting phase of `process_input`. -/
def greetingPhase (s : BotState) (text_clean text_lower : List Char)
    (word_count now : Nat) : BotState × Option String :=
  if is_pure_refusal text_lower word_count then
    ({ s with state := "closing", should_disconnect := true }, some ("early_exit"))
  else
    let s1 := { s with state := ("listening" : String),
                       grievance_text := s.grievance_text ++ text_clean,
                       grievance_timestamp := some now }
    if 7 < word_count then ({ s1 with has_played_probe := true }, some ("probe_details"))
    else (s1, none)

/-- agent.py lines 164-213: the listening phase of `process_input`: append the
utterance, then strong exit phrases, farewell suffixes, solo gratitude, the
noise filter, the one-shot probe and the stochastic backchannel, in that order. -/
def listeningPhase (s : BotState) (text_clean text_lower : List Char)
    (word_count now : Nat) (ackR : Bool) (ackC : Fin 3) : BotState × Option String :=
  let s1 := { s with grievance_text := s.grievance_text ++ spc :: text_clean }
  if strongExitHit text_lower strong_exit_phrases then prepare_exit s1 now
  else if (chars ("bye")).isSuffixOf text_lower
       || (chars ("goodbye")).isSuffixOf text_lower then prepare_exit s1 now
  else if gratitude_phrases.contains text_lower then prepare_exit s1 now
  else if word_count < 2 then (s1, none)
  else if s.has_played_probe = false ∧ 5 < word_count then
    ({ s1 with has_played_probe := true }, some ("probe_details"))
  else if 7 < word_count ∧ ackR = true then (s1, some (ack_sounds.getD (ackC.val) ("ack_1")))
  else (s1, none)

/-- `GrievanceBotLogic.process_input` (agent.py lines 123-215). -/
def process_input (s : BotState) (text : List Char) (now : Nat)
    (ackR : Bool) (ackC : Fin 3) : BotState × Option String :=
  if s.should_disconnect then (s, none)
  else
    let text_clean := pyStrip text
    let text_lower := pyLower text_clean
    let word_count := (pySplit text_lower).length
    if guardFires text_clean then
      if s.state = ("listening" : String) then
        ({ s with grievance_text := s.grievance_text ++ spc :: text_clean }, none)
      else (s, none)
    else if s.state = ("greeting" : String) then
      greetingPhase s text_clean text_lower word_count now
    else if s.state = ("listening" : String) then
      listeningPhase s text_clean text_lower word_count now ackR ackC
    else (s, none)

/-- One `process_input` call driven by a `BotInput`. -/
def stepBot (s : BotState) (i : BotInput) : BotState × Option String :=
  process_input s i.text i.now i.ackR i.ackC

/-- Final state after a sequence of `process_input` calls. -/
def runBot (s : BotState) : List BotInput → BotState
  | [] => s
  | i :: rest => runBot (stepBot s i).1 rest

/-- The actions returned along a sequence of `process_input` calls. -/
def runOutputs (s : BotState) : List BotInput → List (Option String)
  | [] => []
  | i :: rest => (stepBot s i).2 :: runOutputs (stepBot s i).1 rest

/-- States reachable from a fresh `GrievanceBotLogic` by some call sequence. -/
def Reachable (s : BotState) : Prop := ∃ l : List BotInput, runBot initBot l = s

/-- The word count `process_input` computes for an input. -/
def wcOf (i : BotInput) : Nat := (pySplit (pyLower (pyStrip i.text))).length

/-! ## FrameDecoder: `AudioFilePlayer._decode_file` (agent.py lines 74-87)

The decoder resamples the asset and accumulates the resampled byte chunks in
`buffer`, yielding `buffer[:960]` while at least 960 bytes are available.
`decodeAux` is the generator body: it takes the current buffer and the
remaining resampled chunks and returns the yielded frames together with the
final buffer remnant, which the generator silently discards when the input
ends (`container.close()` with no flush). Bytes are modelled as `Nat`. -/

/-- The inner `while len(buffer) >= 960` loop (agent.py lines 84-86):
slice off 960-byte frames, returning the frames and the short remnant. -/
def emitFrames (buf : List Nat) : List (List Nat) × List Nat :=
  if _h : 960 ≤ buf.length then
    let tail := emitFrames (buf.drop 960)
    (buf.take 960 :: tail.1, tail.2)
  else ([], buf)
termination_by buf.length
decreasing_by simp only [List.length_drop]; omega

/-- The `for resampled_frame in ...` loop of `_decode_file`: extend the buffer
with each resampled chunk and emit complete 960-byte frames. Returns the
yielded frames and the final (dropped) buffer remnant. -/
def decodeAux (buf : List Nat) : List (List Nat) → List (List Nat) × List Nat
  | [] => ([], buf)
  | c :: cs =>
    let e := emitFrames (buf ++ c)
    let r := decodeAux e.2 cs
    (e.1 ++ r.1, r.2)

/-- `AudioFilePlayer._decode_file`: the frames the generator yields for a
decoded, resampled PCM stream given as its list of byte chunks. -/
def decode_file (chunks : List (List Nat)) : List (List Nat) := (decodeAux [] chunks).1

/-! ## PlaybackScheduler: `AudioFilePlayer.play` (agent.py lines 54-72)

The scheduler is embedded as a labelled transition system over the single
task slot `_current_task`. The event loop is single threaded, so at each
suspension point exactly one of the following happens:
* `write tid f` - the active, uncancelled task writes its next frame to the
  sink (`capture_frame`) and sleeps (lines 103-109);
* `taskDone` - the active task runs out of frames and completes;
* `cancel` - a `play` call cancels the in-flight task (line 57);
* `cancelExit` - a cancelled task is resumed, raises its cancellation at the
  suspension point without writing another frame, and exits; the `play`
  caller was awaiting exactly this (lines 58-61);
* `start tid frames` - `play` creates the new task (lines 67-69). Its
  precondition `current = none` reflects that `play` reassigns
  `_current_task` only after the cancelled predecessor has been awaited. -/

structure PTask where
  tid : Nat
  pending : List Nat
  cancelled : Bool
deriving DecidableEq, Repr

structure Sched where
  current : Option PTask
  sink : List (Nat × Nat)
deriving DecidableEq, Repr

inductive Ev where
  | write (tid f : Nat)
  | taskDone
  | cancel
  | cancelExit
  | start (tid : Nat) (frames : List Nat)
deriving DecidableEq, Repr

def Ev.isStart : Ev → Bool
  | .start _ _ => true
  | _ => false

/-- One scheduler event; `none` when the event is not enabled in `s`. -/
def stepFn (s : Sched) : Ev → Option Sched
  | .write tid f =>
    match s.current with
    | some t =>
      if t.tid = tid ∧ t.cancelled = false ∧ t.pending.head? = some f then
        some { current := some { t with pending := t.pending.tail },
               sink := s.sink ++ [(tid, f)] }
      else none
    | none => none
  | .taskDone =>
    match s.current with
    | some t => if t.pending = [] ∧ t.cancelled = false
                then some { s with current := none } else none
    | none => none
  | .cancel =>
    match s.current with
    | some t => some { s with current := some { t with cancelled := true } }
    | none => none
  | .cancelExit =>
    match s.current with
    | some t => if t.cancelled = true then some { s with current := none } else none
    | none => none
  | .start tid frames =>
    match s.current with
    | none => some { s with current := some ⟨tid, frames, false⟩ }
    | some _ => none

/-- Run a trace of scheduler events. -/
def execTrace (s : Sched) : List Ev → Option Sched
  | [] => some s
  | e :: evs =>
    match stepFn s e with
    | some s' => execTrace s' evs
    | none => none

/-! ## Playback failure isolation (`AudioFilePlayer._stream_from_disk`,
agent.py lines 100-111, and `play`, lines 54-72)

A decode of an uncached asset is summarised by the frames produced before a
possible failure and that failure (`av` raises on a missing or corrupt
asset; the exception surfaces while the `for chunk_data in
self._decode_file(...)` loop runs inside the `try`). -/

structure DecodeOutcome where
  frames : List (List Nat)
  failure : Option String
deriving DecidableEq, Repr

structure PlayerState where
  is_playing : Bool
  writes : List (List Nat)
  log : List String
deriving DecidableEq, Repr

/-- `_stream_from_disk`: stream the decoded frames; the `try/except Exception`
catches any decode failure after the frames so far were written, prints it,
and returns normally. -/
def stream_from_disk (ps : PlayerState) (d : DecodeOutcome) : PlayerState :=
  match d.failure with
  | none => { ps with writes := ps.writes ++ d.frames }
  | some e => { ps with writes := ps.writes ++ d.frames,
                        log := ps.log ++ [("Error streaming ") ++ e] }

/-- `play` on an uncached cue: set `is_playing`, run the disk-streaming task,
await it, clear `is_playing`. The return type records whether an exception
propagates to the caller of `play`; the task body catches decode failures,
so the result is always `Except.ok`. -/
def playDisk (ps : PlayerState) (d : DecodeOutcome) : Except String PlayerState :=
  let ps1 := { ps with is_playing := true }
  let ps2 := stream_from_disk ps1 d
  Except.ok { ps2 with is_playing := false }

/-! ## SessionOrchestrator: `process_stt_events` (agent.py lines 286-320)
and `push_audio_to_stt` (lines 334-337)

An STT event carries the finality flag, the transcript (inside `inp`,
together with the oracles a `process_input` call needs) and the value of
`player.is_playing` observed when the event arrives. -/

structure SttEvent where
  final : Bool
  playing : Bool
  inp : BotInput
deriving DecidableEq, Repr

def setPlaying (b : Bool) (e : SttEvent) : SttEvent := { e with playing := b }

/-- The final-transcript branch of `process_stt_events`: skip non-final
events, skip empty or duplicated transcripts, otherwise feed the transcript
to `GrievanceBotLogic.process_input` and stop after a closing or early-exit
action (the loop `break`s and the session disconnects). Returns the list of
transcripts routed into the dialogue engine. -/
def routeLoop (bot : BotState) (last : List Char) : List SttEvent → List (List Char)
  | [] => []
  | e :: rest =>
    if e.final = false then routeLoop bot last rest
    else if e.inp.text = [] ∨ e.inp.text = last then routeLoop bot last rest
    else
      let r := stepBot bot e.inp
      match r.2 with
      | none => e.inp.text :: routeLoop r.1 e.inp.text rest
      | some a =>
        if a = ("closing" : String) ∨ a = ("early_exit" : String) then [e.inp.text]
        else e.inp.text :: routeLoop r.1 e.inp.text rest

/-- One microphone audio frame together with the value of `player.is_playing`
observed when it arrives. -/
structure AudioEvent where
  frame : Nat
  playing : Bool
deriving DecidableEq, Repr

/-- `push_audio_to_stt`: forward a microphone frame to the STT stream only
while the player is not playing (agent.py lines 334-337). -/
def push_audio_to_stt : List AudioEvent → List Nat
  | [] => []
  | e :: rest =>
    if e.playing = false then e.frame :: push_audio_to_stt rest
    else push_audio_to_stt rest

/-! ## Spec-side predicates

These two definitions follow the words of the claims (not the code); they
exist to be compared with the behaviour of the source-derived definitions
above. -/

/-- Claim C3 reads: the utterance contains a strong closing phrase either at
the end of the utterance or followed by at most 2 trailing words. An occurrence
at the end is an occurrence with no trailing words, so the condition is: some
phrase occurs at some position with at most 2 words after it. -/
def specStrongCloseCond (text_lower : List Char) : Bool :=
  strong_exit_phrases.any (fun p =>
    (List.range (text_lower.length + 1)).any (fun i =>
      p.isPrefixOf (text_lower.drop i)
      && decide ((pySplit (pyStrip ((text_lower.drop i).drop p.length))).length ≤ 2)))

/-- Claim C4 reads: a "short pure refusal - fewer than 4 words, matching a
refusal keyword, and containing nothing else of substance": every word of the
utterance is a refusal keyword, there is at least one word, and there are
fewer than 4 words. -/
def specPureRefusal (text_lower : List Char) : Bool :=
  let ws := pySplit text_lower
  decide (ws.length < 4) && !ws.isEmpty && ws.all (fun w => exit_triggers.contains w)


/-! ## Helper lemmas about the decoder -/

theorem emitFrames_flatten (buf : List Nat) :
    (emitFrames buf).1.flatten ++ (emitFrames buf).2 = buf := by
  induction buf using emitFrames.induct with
  | case1 buf h ih =>
    rw [emitFrames]
    simp only [dif_pos h, List.flatten_cons, List.append_assoc]
    rw [ih]
    exact List.take_append_drop 960 buf
  | case2 buf h =>
    rw [emitFrames]
    simp [dif_neg h]

theorem emitFrames_sizes (buf : List Nat) :
    ∀ f ∈ (emitFrames buf).1, f.length = 960 := by
  induction buf using emitFrames.induct with
  | case1 buf h ih =>
    rw [emitFrames]
    simp only [dif_pos h, List.mem_cons]
    intro f hf
    rcases hf with hf | hf
    · subst hf; rw [List.length_take]; omega
    · exact ih f hf
  | case2 buf h =>
    rw [emitFrames]
    simp [dif_neg h]

theorem emitFrames_rem (buf : List Nat) :
    (emitFrames buf).2.length = buf.length % 960 := by
  induction buf using emitFrames.induct with
  | case1 buf h ih =>
    rw [emitFrames]
    simp only [dif_pos h]
    have h2 : buf.length - 960 + 960 = buf.length := by omega
    calc (emitFrames (buf.drop 960)).2.length
        = (buf.drop 960).length % 960 := ih
      _ = (buf.length - 960) % 960 := by rw [List.length_drop]
      _ = (buf.length - 960 + 960) % 960 := (Nat.add_mod_right _ _).symm
      _ = buf.length % 960 := by rw [h2]
  | case2 buf h =>
    rw [emitFrames]
    simp only [dif_neg h]
    exact (Nat.mod_eq_of_lt (by omega)).symm

theorem decodeAux_flatten (buf : List Nat) (cs : List (List Nat)) :
    (decodeAux buf cs).1.flatten ++ (decodeAux buf cs).2 = buf ++ cs.flatten := by
  induction cs generalizing buf with
  | nil => simp [decodeAux]
  | cons c cs ih =>
    simp only [decodeAux, List.flatten_cons, List.flatten_append, List.append_assoc]
    rw [ih, ← List.append_assoc, emitFrames_flatten, List.append_assoc]

theorem decodeAux_sizes (buf : List Nat) (cs : List (List Nat)) :
    ∀ f ∈ (decodeAux buf cs).1, f.length = 960 := by
  induction cs generalizing buf with
  | nil => simp [decodeAux]
  | cons c cs ih =>
    simp only [decodeAux, List.mem_append]
    intro f hf
    rcases hf with hf | hf
    · exact emitFrames_sizes _ f hf
    · exact ih _ f hf

theorem decodeAux_rem (buf : List Nat) (cs : List (List Nat)) (hb : buf.length < 960) :
    (decodeAux buf cs).2.length = (buf.length + cs.flatten.length) % 960 := by
  induction cs generalizing buf with
  | nil =>
    simp only [decodeAux, List.flatten_nil, List.length_nil, Nat.add_zero]
    exact (Nat.mod_eq_of_lt hb).symm
  | cons c cs ih =>
    simp only [decodeAux, List.flatten_cons, List.length_append]
    have hrem : (emitFrames (buf ++ c)).2.length = (buf ++ c).length % 960 :=
      emitFrames_rem _
    have hlt : (emitFrames (buf ++ c)).2.length < 960 := by
      rw [hrem]; exact Nat.mod_lt _ (by omega)
    rw [ih _ hlt, hrem, List.length_append, Nat.mod_add_mod, Nat.add_assoc]

/-! ## Claim theorems: decoder -/

/-- Claim C10: every frame `_decode_file` yields has exactly 960 bytes, the
yielded frames are a prefix of the decoded PCM byte stream, and the trailing
`total % 960` bytes are silently discarded when the generator finishes -
never yielded and never padded (agent.py lines 79-87). -/
theorem decode_frames_exact_tail_dropped (chunks : List (List Nat)) :
    ((decode_file chunks).all (fun f => f.length == 960)) = true
    ∧ (decode_file chunks).flatten ++ (decodeAux [] chunks).2 = chunks.flatten
    ∧ (decodeAux [] chunks).2.length = chunks.flatten.length % 960 := by
  refine ⟨?_, ?_, ?_⟩
  · rw [List.all_eq_true]
    intro f hf
    have := decodeAux_sizes [] chunks f hf
    simpa using this
  · have := decodeAux_flatten [] chunks
    simpa [decode_file] using this
  · have := decodeAux_rem [] chunks (by simp)
    simpa using this

/-- Claim C7 counterexample: on a decoded PCM stream of 961 bytes the yielded
frames concatenate to 960 bytes, not 961, so the concatenation of frame byte
lengths differs from the decoded PCM byte length. -/
theorem decode_flatten_length_ctrex :
    (decode_file [List.replicate 961 0]).flatten.length
      ≠ (([List.replicate 961 0] : List (List Nat))).flatten.length := by
  have hlen : (([List.replicate 961 0] : List (List Nat))).flatten.length = 961 := by
    simp only [List.flatten_cons, List.flatten_nil, List.append_nil, List.length_replicate]
  have hj := congrArg List.length (decodeAux_flatten [] [List.replicate 961 0])
  rw [List.length_append, List.nil_append, hlen] at hj
  have hr := decodeAux_rem [] [List.replicate 961 0] (by simp)
  rw [List.length_nil, Nat.zero_add, hlen] at hr
  have h961 : (961 : Nat) % 960 = 1 := by decide
  rw [h961] at hr
  simp only [decode_file]
  omega

/-- Claim C7 (amended): every yielded frame has exactly 960 bytes (not just
all but the last), and the concatenation of frame byte lengths equals the
decoded PCM byte length rounded DOWN to a multiple of 960 - the short tail
is dropped, so equality with the full byte length fails whenever the length
is not a multiple of 960. -/
theorem decode_flatten_length_amended (chunks : List (List Nat)) :
    ((decode_file chunks).all (fun f => f.length == 960)) = true
    ∧ (decode_file chunks).flatten.length
        = chunks.flatten.length - chunks.flatten.length % 960 := by
  refine ⟨?_, ?_⟩
  · rw [List.all_eq_true]
    intro f hf
    have := decodeAux_sizes [] chunks f hf
    simpa using this
  · have hj := congrArg List.length (decodeAux_flatten [] chunks)
    rw [List.length_append, List.nil_append] at hj
    have hr := decodeAux_rem [] chunks (by simp)
    rw [List.length_nil, Nat.zero_add] at hr
    simp only [decode_file]
    omega

/-! ## Claim theorems: terminal state, question guard, failure isolation -/

/-- Claim C1: once `should_disconnect` is set (the closing state), every
further `process_input` call returns no action and leaves the whole record -
accumulated text, timestamp, probe flag, state - unchanged
(agent.py lines 124-125 return `None` before any mutation). -/
theorem closing_terminal_frozen (s : BotState) (h : s.should_disconnect = true)
    (l : List BotInput) :
    runBot s l = s ∧ ∀ o ∈ runOutputs s l, o = none := by
  have hstep : ∀ i : BotInput, stepBot s i = (s, none) := by
    intro i
    simp [stepBot, process_input, h]
  induction l with
  | nil => simp [runBot, runOutputs]
  | cons i rest ih =>
    refine ⟨?_, ?_⟩
    · rw [runBot, hstep i]
      exact ih.1
    · intro o ho
      rw [runOutputs, hstep i] at ho
      rcases List.mem_cons.mp ho with h1 | h1
      · exact h1
      · exact ih.2 o h1

/-- A concrete closed-session record, for the C1 witness. -/
def closedBot : BotState :=
  { state := "closing", grievance_text := chars ("hello there"),
    should_disconnect := true, grievance_timestamp := some 7,
    has_played_probe := true, save_data := none }

/-- Witness for C1: a closed record is unchanged by two further calls and
both calls return no action. -/
theorem closing_terminal_frozen_witness :
    closedBot.should_disconnect = true
    ∧ runBot closedBot [⟨chars ("one more thing"), 9, true, 1⟩,
        ⟨chars ("i am done"), 10, false, 0⟩] = closedBot
    ∧ ∀ o ∈ runOutputs closedBot [⟨chars ("one more thing"), 9, true, 1⟩,
        ⟨chars ("i am done"), 10, false, 0⟩], o = none := by
  refine ⟨rfl, ?_, ?_⟩
  · exact (closing_terminal_frozen closedBot rfl _).1
  · exact (closing_terminal_frozen closedBot rfl _).2

/-- Claim C5: when the question guard fires (the stripped text ends with a
question mark or its lower-casing starts with an interrogative word), no
action is returned and nothing changes - in particular the state does not
move to closing - except that in the listening state the utterance is still
appended to the accumulated grievance (agent.py lines 134-139). -/
theorem interrogative_guard_suppresses (s : BotState) (t : List Char) (now : Nat)
    (aR : Bool) (aC : Fin 3) (hd : s.should_disconnect = false)
    (hg : guardFires (pyStrip t) = true) :
    process_input s t now aR aC
      = ({ s with grievance_text :=
            if s.state = ("listening" : String)
            then s.grievance_text ++ spc :: pyStrip t
            else s.grievance_text }, none) := by
  obtain ⟨st, gt, sd, gts, hp, sv⟩ := s
  simp only at hd
  subst hd
  by_cases hs : st = ("listening" : String) <;>
    simp [process_input, hg, hs]

/-- A concrete mid-session listening record, shared by witnesses. -/
def listenBot : BotState :=
  { state := "listening", grievance_text := chars ("prior text"),
    should_disconnect := false, grievance_timestamp := some 5,
    has_played_probe := false, save_data := none }

/-- Witness for C5: the spec example "is that all you need?" in listening. -/
theorem interrogative_guard_suppresses_witness :
    guardFires (pyStrip (chars ("is that all you need?"))) = true
    ∧ process_input listenBot (chars ("is that all you need?")) 4 false 0
      = ({ listenBot with grievance_text :=
            if listenBot.state = ("listening" : String)
            then listenBot.grievance_text ++ spc :: pyStrip (chars ("is that all you need?"))
            else listenBot.grievance_text }, none) :=
  ⟨by decide,
   interrogative_guard_suppresses listenBot (chars ("is that all you need?")) 4 false 0
     rfl (by decide)⟩

/-- The log entry `_stream_from_disk` produces for a decode outcome
(the `print` in its `except` clause; agent.py line 111). -/
def streamLog : Option String → List String
  | none => []
  | some e => [("Error streaming ") ++ e]

/-- Claim C9: a failed decode of an uncached asset is caught inside the
playback task (agent.py lines 102-111): `play` returns normally to its
caller (`Except.ok`, never an exception), the failure is only logged, the
frames produced before the failure are the only writes, and the player ends
idle (`is_playing = false`), so the session continues. -/
theorem play_error_isolated (ps : PlayerState) (d : DecodeOutcome) :
    playDisk ps d
      = Except.ok { is_playing := false,
                    writes := ps.writes ++ d.frames,
                    log := ps.log ++ streamLog d.failure } := by
  cases d with
  | mk frames failure =>
    cases failure <;> simp [playDisk, stream_from_disk, streamLog]

/-! ## Claim theorems: playback scheduler -/

theorem execTrace_append (s : Sched) (a b : List Ev) :
    execTrace s (a ++ b) = (execTrace s a).bind (fun s1 => execTrace s1 b) := by
  induction a generalizing s with
  | nil => simp [execTrace]
  | cons e a ih =>
    simp only [List.cons_append, execTrace]
    cases stepFn s e with
    | none => simp
    | some s' => simp [ih]

theorem step_keeps_tid (s s' : Sched) (e : Ev) (btid : Nat)
    (hcur : ∀ u, s.current = some u → u.tid = btid)
    (hstep : stepFn s e = some s') (hns : e.isStart = false) :
    ∀ u, s'.current = some u → u.tid = btid := by
  cases e with
  | write tid f =>
    cases hc : s.current with
    | none => simp only [stepFn, hc] at hstep; exact absurd hstep (by simp)
    | some t =>
      simp only [stepFn, hc] at hstep
      by_cases hcond : t.tid = tid ∧ t.cancelled = false ∧ t.pending.head? = some f
      · rw [if_pos hcond] at hstep
        cases hstep
        intro u hu
        cases hu
        exact hcur t hc
      · rw [if_neg hcond] at hstep; exact absurd hstep (by simp)
  | taskDone =>
    cases hc : s.current with
    | none => simp only [stepFn, hc] at hstep; exact absurd hstep (by simp)
    | some t =>
      simp only [stepFn, hc] at hstep
      by_cases hcond : t.pending = [] ∧ t.cancelled = false
      · rw [if_pos hcond] at hstep
        cases hstep
        intro u hu
        exact absurd hu (by simp)
      · rw [if_neg hcond] at hstep; exact absurd hstep (by simp)
  | cancel =>
    cases hc : s.current with
    | none => simp only [stepFn, hc] at hstep; exact absurd hstep (by simp)
    | some t =>
      simp only [stepFn, hc] at hstep
      cases hstep
      intro u hu
      cases hu
      exact hcur t hc
  | cancelExit =>
    cases hc : s.current with
    | none => simp only [stepFn, hc] at hstep; exact absurd hstep (by simp)
    | some t =>
      simp only [stepFn, hc] at hstep
      by_cases hcond : t.cancelled = true
      · rw [if_pos hcond] at hstep
        cases hstep
        intro u hu
        exact absurd hu (by simp)
      · rw [if_neg hcond] at hstep; exact absurd hstep (by simp)
  | start tid frames => exact absurd hns (by simp [Ev.isStart])

theorem step_write_tid (s s' : Sched) (t f : Nat) (btid : Nat)
    (hcur : ∀ u, s.current = some u → u.tid = btid)
    (hstep : stepFn s (Ev.write t f) = some s') : t = btid := by
  cases hc : s.current with
  | none => simp only [stepFn, hc] at hstep; exact absurd hstep (by simp)
  | some u =>
    simp only [stepFn, hc] at hstep
    by_cases hcond : u.tid = t ∧ u.cancelled = false ∧ u.pending.head? = some f
    · exact hcond.1 ▸ hcur u hc
    · rw [if_neg hcond] at hstep; exact absurd hstep (by simp)

theorem writes_match_current (post : List Ev) (s : Sched) (btid : Nat)
    (hcur : ∀ u, s.current = some u → u.tid = btid)
    (hnostart : post.all (fun e => !(e.isStart)) = true)
    (hex : (execTrace s post).isSome = true) :
    ∀ t f, Ev.write t f ∈ post → t = btid := by
  induction post generalizing s with
  | nil => simp
  | cons e rest ih =>
    intro t f hmem
    cases hstep : stepFn s e with
    | none => rw [execTrace, hstep] at hex; exact absurd hex (by simp)
    | some s' =>
      rw [execTrace, hstep] at hex
      rw [List.all_cons, Bool.and_eq_true] at hnostart
      have hns : e.isStart = false := by
        rcases hnostart with ⟨h1, _⟩
        cases hie : e.isStart
        · rfl
        · rw [hie] at h1; exact absurd h1 (by simp)
      rcases List.mem_cons.mp hmem with heq | hmem'
      · subst heq
        exact step_write_tid s s' t f btid hcur hstep
      · exact ih s' (step_keeps_tid s s' e btid hcur hstep hns) hnostart.2 hex t f hmem'

/-- Claim C2: `play(B)` while `play(A)` is in flight first cancels the task
of A and awaits its exit, and only then creates the task of B
(agent.py lines 56-69);
in the scheduler transition system this is the precondition that a `start`
event requires an empty task slot. Consequently, whenever a trace reaches a
`start` of task `btid`, the slot was empty at that point (A fully exited
before B started), and until another `start` occurs every frame written to
the sink belongs to task `btid` - no frame of A lands after the first
frame of B. -/
theorem play_single_task (s0 sEnd : Sched) (pre post : List Ev)
    (btid : Nat) (bframes : List Nat)
    (hrun : execTrace s0 (pre ++ Ev.start btid bframes :: post) = some sEnd)
    (hnostart : post.all (fun e => !(e.isStart)) = true) :
    (∀ u, execTrace s0 pre = some u → u.current = none)
    ∧ ∀ t f, Ev.write t f ∈ post → t = btid := by
  rw [execTrace_append] at hrun
  cases hpre : execTrace s0 pre with
  | none => rw [hpre] at hrun; exact absurd hrun (by simp)
  | some s1 =>
    rw [hpre, Option.some_bind] at hrun
    rw [execTrace] at hrun
    cases hc : s1.current with
    | some t =>
      simp only [stepFn, hc] at hrun
      exact absurd hrun (by simp)
    | none =>
      simp only [stepFn, hc] at hrun
      constructor
      · intro u hu
        cases hu
        exact hc
      · refine writes_match_current post
          { current := some { tid := btid, pending := bframes, cancelled := false },
            sink := s1.sink } btid ?_ hnostart ?_
        · intro u hu
          simp only [Option.some.injEq] at hu
          cases hu
          rfl
        · rw [hrun]; rfl

/-- Witness for C2: a concrete trace in which task 1 plays, a second `play`
cancels it, awaits its exit, starts task 2, and only task 2 writes afterwards. -/
theorem play_single_task_witness :
    execTrace ⟨none, []⟩
        ([Ev.start 1 [10, 11], Ev.write 1 10, Ev.cancel, Ev.cancelExit]
          ++ Ev.start 2 [20] :: [Ev.write 2 20, Ev.taskDone])
      = some ⟨none, [(1, 10), (2, 20)]⟩
    ∧ (∀ u, execTrace ⟨none, []⟩
          [Ev.start 1 [10, 11], Ev.write 1 10, Ev.cancel, Ev.cancelExit] = some u
          → u.current = none)
    ∧ ∀ t f, Ev.write t f ∈ [Ev.write 2 20, Ev.taskDone] → t = 2 := by
  have h := play_single_task ⟨none, []⟩ ⟨none, [(1, 10), (2, 20)]⟩
    [Ev.start 1 [10, 11], Ev.write 1 10, Ev.cancel, Ev.cancelExit]
    [Ev.write 2 20, Ev.taskDone] 2 [20] (by decide) (by decide)
  exact ⟨by decide, h.1, h.2⟩

/-! ## Claim theorems: strong exit phrases and the greeting refusal -/

/-- One phrase test of the strong-exit loop: the phrase is contained, and it
ends the utterance (with an optional trailing period) or at most 2 words
follow its FIRST occurrence. -/
def phraseHit (text_lower p : List Char) : Bool :=
  containsSub text_lower p
  && (p.isSuffixOf text_lower || (p ++ chars (".")).isSuffixOf text_lower
      || decide ((pySplit (pyStrip
            (text_lower.drop ((subFind text_lower p).getD 0 + p.length)))).length ≤ 2))

theorem strongExitHit_eq_any (tl : List Char) (ps : List (List Char)) :
    strongExitHit tl ps = ps.any (fun p => phraseHit tl p) := by
  induction ps with
  | nil => simp [strongExitHit]
  | cons p ps ih =>
    simp only [strongExitHit, List.any_cons, phraseHit]
    split_ifs with h1 h2 h3
    · simp [h1, h2]
    · simp [h1, h2, h3]
    · simpa [h1, h2, h3] using ih
    · simpa [h1] using ih

/-- Claim C3 (amended): in listening with the question guard off, if some
strong exit phrase is contained in the lowered utterance and either ends it
(with an optional trailing period) or is followed by at most 2 words after
its FIRST occurrence, then `process_input` appends the utterance to the
grievance, stores the frozen text for the background save, moves to closing
with `should_disconnect = true` and returns the closing action
(agent.py lines 164-184 and 217-235). -/
theorem strong_close_first_occurrence (s : BotState) (t : List Char) (now : Nat)
    (aR : Bool) (aC : Fin 3)
    (hs : s.state = ("listening" : String)) (hd : s.should_disconnect = false)
    (hg : guardFires (pyStrip t) = false)
    (hm : strong_exit_phrases.any (fun p => phraseHit (pyLower (pyStrip t)) p) = true) :
    process_input s t now aR aC
      = ({ s with grievance_text := s.grievance_text ++ spc :: pyStrip t,
                  state := "closing", should_disconnect := true,
                  save_data := some (s.grievance_text ++ spc :: pyStrip t,
                                     exit_ts s.grievance_timestamp now) },
         some ("closing")) := by
  obtain ⟨st, gt, sd, gts, hp, sv⟩ := s
  simp only at hs hd
  subst hs hd
  have hhit : strongExitHit (pyLower (pyStrip t)) strong_exit_phrases = true := by
    rw [strongExitHit_eq_any]; exact hm
  simp [process_input, hg, listeningPhase, hhit, prepare_exit]

/-- Witness for the amended C3: "i am done" (a phrase at the very end) from
a listening state with prior text. -/
theorem strong_close_first_occurrence_witness :
    guardFires (pyStrip (chars ("i am done"))) = false
    ∧ strong_exit_phrases.any
        (fun p => phraseHit (pyLower (pyStrip (chars ("i am done")))) p) = true
    ∧ process_input listenBot (chars ("i am done")) 9 false 0
      = ({ listenBot with
            grievance_text := listenBot.grievance_text ++ spc :: pyStrip (chars ("i am done")),
            state := "closing", should_disconnect := true,
            save_data := some (listenBot.grievance_text ++ spc :: pyStrip (chars ("i am done")),
                               exit_ts listenBot.grievance_timestamp 9) },
         some ("closing")) :=
  ⟨by decide, by decide,
   strong_close_first_occurrence listenBot (chars ("i am done")) 9 false 0
     rfl rfl (by decide) (by decide)⟩

/-- Claim C3 counterexample: "nothing else matters to me but nothing else
sir" contains the strong phrase "nothing else" followed by one trailing word
(its second occurrence) and the guard is off, so the claim requires the
closing action; but the code inspects only the FIRST occurrence (7 trailing
words), finds no exit, stays in listening and returns the probe action. -/
theorem strong_close_anywhere_ctrex :
    specStrongCloseCond
        (pyLower (pyStrip (chars ("nothing else matters to me but nothing else sir")))) = true
    ∧ guardFires (pyStrip (chars ("nothing else matters to me but nothing else sir"))) = false
    ∧ (process_input listenBot
        (chars ("nothing else matters to me but nothing else sir")) 0 false 0).2
        = some ("probe_details")
    ∧ (process_input listenBot
        (chars ("nothing else matters to me but nothing else sir")) 0 false 0).1.state
        = ("listening" : String) :=
  ⟨by decide, by decide, by decide, by decide⟩

/-- Claim C4 (amended): in greeting with the question guard off,
`process_input` moves to closing with `should_disconnect = true` and returns
the early-exit action IF AND ONLY IF the lowered utterance has fewer than 4
words and contains one of the refusal keywords "no", "nothing", "nope",
"nah" as a SUBSTRING (agent.py lines 141-150); the code performs no check
that the utterance contains nothing else of substance. -/
theorem greeting_refusal_iff (s : BotState) (t : List Char) (now : Nat)
    (aR : Bool) (aC : Fin 3)
    (hs : s.state = ("greeting" : String)) (hd : s.should_disconnect = false)
    (hg : guardFires (pyStrip t) = false) :
    (process_input s t now aR aC
      = ({ s with state := "closing", should_disconnect := true }, some ("early_exit")))
    ↔ is_pure_refusal (pyLower (pyStrip t))
        ((pySplit (pyLower (pyStrip t))).length) = true := by
  obtain ⟨st, gt, sd, gts, hp, sv⟩ := s
  simp only at hs hd
  subst hs hd
  constructor
  · intro h
    by_cases hr : is_pure_refusal (pyLower (pyStrip t))
        ((pySplit (pyLower (pyStrip t))).length) = true
    · exact hr
    · exfalso
      have h2 := congrArg Prod.snd h
      by_cases hw : 7 < (pySplit (pyLower (pyStrip t))).length <;>
        simp [process_input, hg, greetingPhase, hr, hw] at h2
  · intro hr
    simp [process_input, hg, greetingPhase, hr]

/-- Witness for the amended C4: the spec example, the single utterance "no"
in greeting, yields the early exit. -/
theorem greeting_refusal_iff_witness :
    process_input initBot (chars ("no")) 3 false 0
      = ({ initBot with state := "closing", should_disconnect := true },
         some ("early_exit")) :=
  (greeting_refusal_iff initBot (chars ("no")) 3 false 0 rfl rfl (by decide)).mpr
    (by decide)

/-- Claim C4 counterexample: "i know him" is not a pure refusal in the sense
of the claim (its words are not refusal keywords), and the guard is off, yet
the code early-exits from greeting because "no" is a substring of "know" -
the claimed equivalence fails. -/
theorem greeting_refusal_ctrex :
    specPureRefusal (pyLower (pyStrip (chars ("i know him")))) = false
    ∧ guardFires (pyStrip (chars ("i know him"))) = false
    ∧ process_input initBot (chars ("i know him")) 0 false 0
      = ({ initBot with state := "closing", should_disconnect := true },
         some ("early_exit")) :=
  ⟨by decide, by decide, by decide⟩

/-! ## Claim theorems: transcript routing and audio gating -/

/-- Claim C8 (amended): the final-transcript loop routes a transcript into
the dialogue engine based only on finality, non-emptiness and difference
from the previously processed transcript - it never consults
`player.is_playing`, so the routed transcripts are unchanged when the
observed playing flag of every event is overwritten by an arbitrary value. The
half-duplex suppression lives upstream instead: `push_audio_to_stt` forwards
exactly the microphone frames that arrive while the player is not playing
(agent.py lines 286-320 and 334-337). -/
theorem route_gate_amended (bot : BotState) (last : List Char) (evs : List SttEvent)
    (b : Bool) (frames : List AudioEvent) :
    routeLoop bot last (evs.map (setPlaying b)) = routeLoop bot last evs
    ∧ push_audio_to_stt frames
        = (frames.filter (fun e => !e.playing)).map (fun e => e.frame) := by
  constructor
  · induction evs generalizing bot last with
    | nil => rfl
    | cons e rest ih =>
      obtain ⟨fin, pl, inp⟩ := e
      cases fin
      · simp only [List.map_cons, setPlaying, routeLoop]
        exact ih bot last
      · by_cases h2 : inp.text = [] ∨ inp.text = last
        · simp only [List.map_cons, setPlaying, routeLoop, if_pos h2]
          simp only [Bool.true_eq_false, if_false]
          exact ih bot last
        · simp only [List.map_cons, setPlaying, routeLoop]
          simp only [Bool.true_eq_false, if_false]
          rw [if_neg h2, if_neg h2]
          cases hsb : (stepBot bot inp).2 with
          | none => simp only [hsb]; rw [ih]
          | some a =>
            simp only [hsb]
            by_cases hcl : a = ("closing" : String) ∨ a = ("early_exit" : String)
            · rw [if_pos hcl, if_pos hcl]
            · rw [if_neg hcl, if_neg hcl, ih]
  · induction frames with
    | nil => rfl
    | cons e rest ih =>
      obtain ⟨fr, pl⟩ := e
      cases pl <;> simp [push_audio_to_stt, ih, List.filter]

/-- Claim C8 counterexample: a final, non-empty, non-duplicate transcript
that arrives while `player.is_playing` is true IS processed - the loop at
agent.py lines 294-300 never checks the playing flag, so a transcript in
flight when playback starts is still fed to the engine. -/
theorem route_while_playing_ctrex :
    (({ final := true, playing := true,
        inp := ⟨chars ("hello"), 0, false, 0⟩ } : SttEvent)).playing = true
    ∧ routeLoop initBot []
        [{ final := true, playing := true, inp := ⟨chars ("hello"), 0, false, 0⟩ }]
      = [chars ("hello")] :=
  ⟨rfl, by decide⟩

/-! ## Claim theorems: the probe is played at most once -/

theorem ack_getD_ne_probe (n : Nat) :
    ack_sounds.getD n ("ack_1") ≠ ("probe_details") := by
  match n with
  | 0 => decide
  | 1 => decide
  | 2 => decide
  | m + 3 =>
    have hlen : ack_sounds.length ≤ m + 3 := by simp [ack_sounds]
    rw [List.getD_eq_default _ _ hlen]
    decide

/-- Outcome states of the greeting phase: closing or listening, never
greeting. -/
theorem greetingPhase_state (s : BotState) (tc tl : List Char) (wc now : Nat) :
    (greetingPhase s tc tl wc now).1.state = ("closing" : String)
    ∨ (greetingPhase s tc tl wc now).1.state = ("listening" : String) := by
  unfold greetingPhase
  split_ifs <;> simp

/-- The greeting phase returns the probe action only on more than 7 words,
setting the flag and landing in listening. -/
theorem greetingPhase_probe (s : BotState) (tc tl : List Char) (wc now : Nat)
    (hp : (greetingPhase s tc tl wc now).2 = some ("probe_details")) :
    7 < wc ∧ (greetingPhase s tc tl wc now).1.has_played_probe = true
    ∧ (greetingPhase s tc tl wc now).1.state = ("listening" : String) := by
  revert hp
  unfold greetingPhase
  split_ifs <;> intro hp <;> simp_all

/-- Outcome states of the listening phase: closing or the state unchanged. -/
theorem listeningPhase_state (s : BotState) (tc tl : List Char) (wc now : Nat)
    (aR : Bool) (aC : Fin 3) :
    (listeningPhase s tc tl wc now aR aC).1.state = ("closing" : String)
    ∨ (listeningPhase s tc tl wc now aR aC).1.state = s.state := by
  unfold listeningPhase prepare_exit
  split_ifs <;> simp

/-- The listening phase returns the probe action only when the flag is still
unset and more than 5 words arrived; it sets the flag and keeps the state. -/
theorem listeningPhase_probe (s : BotState) (tc tl : List Char) (wc now : Nat)
    (aR : Bool) (aC : Fin 3)
    (hp : (listeningPhase s tc tl wc now aR aC).2 = some ("probe_details")) :
    s.has_played_probe = false ∧ 5 < wc
    ∧ (listeningPhase s tc tl wc now aR aC).1.has_played_probe = true
    ∧ (listeningPhase s tc tl wc now aR aC).1.state = s.state := by
  revert hp
  unfold listeningPhase prepare_exit
  split_ifs <;> intro hp <;> simp_all
  exact absurd hp (by simpa [List.getD_eq_getElem?_getD] using ack_getD_ne_probe aC.val)

/-- With the flag already set, the listening phase keeps it and never
returns the probe action. -/
theorem listeningPhase_spent (s : BotState) (tc tl : List Char) (wc now : Nat)
    (aR : Bool) (aC : Fin 3) (h1 : s.has_played_probe = true) :
    (listeningPhase s tc tl wc now aR aC).1.has_played_probe = true
    ∧ (listeningPhase s tc tl wc now aR aC).2 ≠ some ("probe_details") := by
  unfold listeningPhase prepare_exit
  split_ifs <;> simp_all
  simpa [List.getD_eq_getElem?_getD] using ack_getD_ne_probe aC.val

/-- If a step leaves the machine in the greeting state, the step changed
nothing: no branch of `process_input` ever assigns the greeting state. -/
theorem stepBot_greeting_id (s : BotState) (i : BotInput)
    (h : (stepBot s i).1.state = ("greeting" : String)) :
    (stepBot s i).1 = s ∧ s.state = ("greeting" : String) := by
  by_cases hd : s.should_disconnect = true
  · simp only [stepBot, process_input, if_pos hd] at h ⊢
    exact ⟨by simp, h⟩
  · simp only [stepBot, process_input, if_neg hd] at h ⊢
    by_cases hg : guardFires (pyStrip i.text) = true
    · rw [if_pos hg] at h ⊢
      by_cases hl : s.state = ("listening" : String)
      · rw [if_pos hl] at h ⊢
        simp only at h
        rw [hl] at h
        exact absurd h (by decide)
      · rw [if_neg hl] at h ⊢
        exact ⟨by simp, h⟩
    · rw [if_neg hg] at h ⊢
      by_cases hgr : s.state = ("greeting" : String)
      · rw [if_pos hgr] at h ⊢
        rcases greetingPhase_state s (pyStrip i.text) (pyLower (pyStrip i.text))
            ((pySplit (pyLower (pyStrip i.text))).length) i.now with hc | hc <;>
          rw [hc] at h <;> exact absurd h (by decide)
      · rw [if_neg hgr] at h ⊢
        by_cases hl : s.state = ("listening" : String)
        · rw [if_pos hl] at h ⊢
          rcases listeningPhase_state s (pyStrip i.text) (pyLower (pyStrip i.text))
              ((pySplit (pyLower (pyStrip i.text))).length) i.now i.ackR i.ackC with hc | hc <;>
            rw [hc] at h
          · exact absurd h (by decide)
          · rw [hl] at h
            exact absurd h (by decide)
        · rw [if_neg hl] at h ⊢
          exact ⟨by simp, h⟩

/-- A probe action is produced only by the two probe branches: from greeting
on more than 7 words, or from listening on more than 5 words with the flag
still unset; both set the flag and land in listening. -/
theorem stepBot_probe_out (s : BotState) (i : BotInput)
    (hp : (stepBot s i).2 = some ("probe_details")) :
    s.should_disconnect = false
    ∧ ((s.state = ("greeting" : String) ∧ 7 < wcOf i)
        ∨ (s.state = ("listening" : String) ∧ s.has_played_probe = false ∧ 5 < wcOf i))
    ∧ (stepBot s i).1.has_played_probe = true
    ∧ (stepBot s i).1.state = ("listening" : String) := by
  by_cases hd : s.should_disconnect = true
  · simp only [stepBot, process_input, if_pos hd] at hp
    exact absurd hp (by simp)
  · have hd2 : s.should_disconnect = false := by
      cases hsd : s.should_disconnect
      · rfl
      · exact absurd hsd hd
    simp only [stepBot, process_input, if_neg hd] at hp ⊢
    by_cases hg : guardFires (pyStrip i.text) = true
    · rw [if_pos hg] at hp
      by_cases hl : s.state = ("listening" : String)
      · rw [if_pos hl] at hp
        exact absurd hp (by simp)
      · rw [if_neg hl] at hp
        exact absurd hp (by simp)
    · rw [if_neg hg] at hp ⊢
      by_cases hgr : s.state = ("greeting" : String)
      · rw [if_pos hgr] at hp ⊢
        obtain ⟨hwc, hflag, hstate⟩ := greetingPhase_probe s (pyStrip i.text)
          (pyLower (pyStrip i.text)) ((pySplit (pyLower (pyStrip i.text))).length) i.now hp
        exact ⟨hd2, Or.inl ⟨hgr, hwc⟩, hflag, hstate⟩
      · rw [if_neg hgr] at hp ⊢
        by_cases hl : s.state = ("listening" : String)
        · rw [if_pos hl] at hp ⊢
          obtain ⟨hf0, hwc, hflag, hstate⟩ := listeningPhase_probe s (pyStrip i.text)
            (pyLower (pyStrip i.text)) ((pySplit (pyLower (pyStrip i.text))).length)
            i.now i.ackR i.ackC hp
          exact ⟨hd2, Or.inr ⟨hl, hf0, hwc⟩, hflag, hl ▸ hstate⟩
        · rw [if_neg hl] at hp
          exact absurd hp (by simp)

/-- Once the flag is set and the machine is past greeting, a step keeps the
flag, never returns to greeting, and never returns the probe action. -/
theorem probeSpent_step (s : BotState) (i : BotInput)
    (h1 : s.has_played_probe = true) (h2 : s.state ≠ ("greeting" : String)) :
    (stepBot s i).1.has_played_probe = true
    ∧ (stepBot s i).1.state ≠ ("greeting" : String)
    ∧ (stepBot s i).2 ≠ some ("probe_details") := by
  by_cases hd : s.should_disconnect = true
  · simp only [stepBot, process_input, if_pos hd]
    exact ⟨h1, h2, by simp⟩
  · simp only [stepBot, process_input, if_neg hd]
    by_cases hg : guardFires (pyStrip i.text) = true
    · rw [if_pos hg]
      by_cases hl : s.state = ("listening" : String)
      · rw [if_pos hl]
        refine ⟨h1, ?_, by simp⟩
        simpa using h2
      · rw [if_neg hl]
        exact ⟨h1, h2, by simp⟩
    · rw [if_neg hg, if_neg h2]
      by_cases hl : s.state = ("listening" : String)
      · rw [if_pos hl]
        obtain ⟨hf, hnp⟩ := listeningPhase_spent s (pyStrip i.text)
          (pyLower (pyStrip i.text)) ((pySplit (pyLower (pyStrip i.text))).length)
          i.now i.ackR i.ackC h1
        refine ⟨hf, ?_, hnp⟩
        rcases listeningPhase_state s (pyStrip i.text) (pyLower (pyStrip i.text))
            ((pySplit (pyLower (pyStrip i.text))).length) i.now i.ackR i.ackC with hc | hc <;>
          rw [hc]
        · decide
        · exact h2
      · rw [if_neg hl]
        exact ⟨h1, h2, by simp⟩

theorem probeSpent_run (s : BotState)
    (h1 : s.has_played_probe = true) (h2 : s.state ≠ ("greeting" : String))
    (l : List BotInput) :
    ∀ o ∈ runOutputs s l, o ≠ some ("probe_details") := by
  induction l generalizing s with
  | nil => simp [runOutputs]
  | cons i rest ih =>
    intro o ho
    obtain ⟨f1, f2, f3⟩ := probeSpent_step s i h1 h2
    rw [runOutputs] at ho
    rcases List.mem_cons.mp ho with h | h
    · subst h; exact f3
    · exact ih _ f1 f2 o h

theorem greet_probe_free_run (l : List BotInput) (s : BotState)
    (h : s.state = ("greeting" : String) → s.has_played_probe = false) :
    (runBot s l).state = ("greeting" : String) →
    (runBot s l).has_played_probe = false := by
  induction l generalizing s with
  | nil => exact h
  | cons i rest ih =>
    rw [runBot]
    apply ih
    intro hg
    obtain ⟨heq, hgs⟩ := stepBot_greeting_id s i hg
    rw [heq]
    exact h hgs

theorem reachable_greet_probe_free (s : BotState) (h : Reachable s) :
    s.state = ("greeting" : String) → s.has_played_probe = false := by
  obtain ⟨l, rfl⟩ := h
  exact greet_probe_free_run l initBot (fun _ => rfl)

/-- Claim C6: along every call sequence from a fresh `GrievanceBotLogic`,
the probe action is returned only on a call where the probe flag is still
unset and the word count exceeds the threshold (more than 7 words in
greeting, more than 5 in listening); that call sets the flag, and no later
call in the sequence ever returns the probe action again
(agent.py lines 156-159 and 201-204). -/
theorem probe_played_once (s : BotState) (hreach : Reachable s) (i : BotInput)
    (hp : (stepBot s i).2 = some ("probe_details")) :
    s.has_played_probe = false
    ∧ (s.state = ("greeting" : String) → 7 < wcOf i)
    ∧ (s.state = ("listening" : String) → 5 < wcOf i)
    ∧ (stepBot s i).1.has_played_probe = true
    ∧ ∀ rest : List BotInput, ∀ o ∈ runOutputs (stepBot s i).1 rest,
        o ≠ some ("probe_details") := by
  obtain ⟨hd, hcases, hpost, hstate⟩ := stepBot_probe_out s i hp
  have hnotgreet : (stepBot s i).1.state ≠ ("greeting" : String) := by
    rw [hstate]; decide
  have hrest : ∀ rest : List BotInput, ∀ o ∈ runOutputs (stepBot s i).1 rest,
      o ≠ some ("probe_details") := fun rest => probeSpent_run _ hpost hnotgreet rest
  rcases hcases with ⟨hg, hwc⟩ | ⟨hl, hflag, hwc⟩
  · refine ⟨reachable_greet_probe_free s hreach hg, fun _ => hwc, ?_, hpost, hrest⟩
    intro hcontra
    rw [hg] at hcontra
    exact absurd hcontra (by decide)
  · refine ⟨hflag, ?_, fun _ => hwc, hpost, hrest⟩
    intro hcontra
    rw [hl] at hcontra
    exact absurd hcontra (by decide)

/-- Witness for C6: from the fresh state, the long spec example returns the
probe, the flag conditions hold, and no later call can return it again. -/
theorem probe_played_once_witness :
    (stepBot initBot ⟨chars ("my pay was cut without notice and nobody explained why"),
        2, false, 0⟩).2 = some ("probe_details")
    ∧ (initBot.has_played_probe = false
       ∧ (initBot.state = ("greeting" : String) →
            7 < wcOf ⟨chars ("my pay was cut without notice and nobody explained why"),
              2, false, 0⟩)
       ∧ (initBot.state = ("listening" : String) →
            5 < wcOf ⟨chars ("my pay was cut without notice and nobody explained why"),
              2, false, 0⟩)
       ∧ (stepBot initBot ⟨chars ("my pay was cut without notice and nobody explained why"),
            2, false, 0⟩).1.has_played_probe = true
       ∧ ∀ rest : List BotInput,
           ∀ o ∈ runOutputs (stepBot initBot
              ⟨chars ("my pay was cut without notice and nobody explained why"),
                2, false, 0⟩).1 rest,
             o ≠ some ("probe_details")) :=
  ⟨by decide,
   probe_played_once initBot ⟨[], rfl⟩
     ⟨chars ("my pay was cut without notice and nobody explained why"), 2, false, 0⟩
     (by decide)⟩
